import Mathlib

/-!
Formal model of the Go package `coord` (soniakeys/coord, file `coord.go`).

Floating-point `float64` values are modelled as real numbers; `math.Atan2`,
`math.Asin` and the sine/cosine routines are modelled by the exact real
functions.  Go slices are modelled by a record holding the slice length, the
capacity, and the underlying store (a total function from indices).
-/

open Real

/-- Cart represents a general purpose 3D cartesian coordinate
(struct `Cart { X, Y, Z float64 }` of `coord.go`). -/
structure Cart where
  X : ℝ
  Y : ℝ
  Z : ℝ

/-- Neg sets z = -a (method `Cart.Neg`, which assigns the three
components of the destination in sequence, each computed from `a`). -/
def Cart.Neg (a : Cart) : Cart :=
  ⟨-a.X, -a.Y, -a.Z⟩

/-- Aliased execution of `Cart.Neg` with z = a: the three assignments
`z.X = -a.X`, `z.Y = -a.Y`, `z.Z = -a.Z` run in order on the shared value. -/
def Cart.negAliased (a : Cart) : Cart :=
  let a1 : Cart := { a with X := -a.X }
  let a2 : Cart := { a1 with Y := -a1.Y }
  { a2 with Z := -a2.Z }

/-- Add sets z = a1 + a2 (method `Cart.Add`). -/
def Cart.Add (a1 a2 : Cart) : Cart :=
  ⟨a1.X + a2.X, a1.Y + a2.Y, a1.Z + a2.Z⟩

/-- Aliased execution of `Cart.Add` with z = a1 (second operand distinct). -/
def Cart.addAliasedLeft (a1 a2 : Cart) : Cart :=
  let b1 : Cart := { a1 with X := a1.X + a2.X }
  let b2 : Cart := { b1 with Y := b1.Y + a2.Y }
  { b2 with Z := b2.Z + a2.Z }

/-- Aliased execution of `Cart.Add` with z = a2 (first operand distinct). -/
def Cart.addAliasedRight (a1 a2 : Cart) : Cart :=
  let b1 : Cart := { a2 with X := a1.X + a2.X }
  let b2 : Cart := { b1 with Y := a1.Y + b1.Y }
  { b2 with Z := a1.Z + b2.Z }

/-- Aliased execution of `Cart.Add` with z = a1 = a2 (all three the same). -/
def Cart.addAliasedBoth (a : Cart) : Cart :=
  let b1 : Cart := { a with X := a.X + a.X }
  let b2 : Cart := { b1 with Y := b1.Y + b1.Y }
  { b2 with Z := b2.Z + b2.Z }

/-- Sub sets z = a1 - a2 (method `Cart.Sub`). -/
def Cart.Sub (a1 a2 : Cart) : Cart :=
  ⟨a1.X - a2.X, a1.Y - a2.Y, a1.Z - a2.Z⟩

/-- Aliased execution of `Cart.Sub` with z = a1. -/
def Cart.subAliasedLeft (a1 a2 : Cart) : Cart :=
  let b1 : Cart := { a1 with X := a1.X - a2.X }
  let b2 : Cart := { b1 with Y := b1.Y - a2.Y }
  { b2 with Z := b2.Z - a2.Z }

/-- Aliased execution of `Cart.Sub` with z = a2. -/
def Cart.subAliasedRight (a1 a2 : Cart) : Cart :=
  let b1 : Cart := { a2 with X := a1.X - a2.X }
  let b2 : Cart := { b1 with Y := a1.Y - b1.Y }
  { b2 with Z := a1.Z - b2.Z }

/-- Aliased execution of `Cart.Sub` with z = a1 = a2. -/
def Cart.subAliasedBoth (a : Cart) : Cart :=
  let b1 : Cart := { a with X := a.X - a.X }
  let b2 : Cart := { b1 with Y := b1.Y - b1.Y }
  { b2 with Z := b2.Z - b2.Z }

/-- MulScalar performs element-wise z = a * scalar b (method `Cart.MulScalar`). -/
def Cart.MulScalar (a : Cart) (b : ℝ) : Cart :=
  ⟨a.X * b, a.Y * b, a.Z * b⟩

/-- Aliased execution of `Cart.MulScalar` with z = a. -/
def Cart.mulScalarAliased (a : Cart) (b : ℝ) : Cart :=
  let b1 : Cart := { a with X := a.X * b }
  let b2 : Cart := { b1 with Y := b1.Y * b }
  { b2 with Z := b2.Z * b }

/-- RotateX rotates the coordinate system around the X axis using the sine
and cosine of a rotation angle (method `Cart.RotateX`; a single Go tuple
assignment `z.X, z.Y, z.Z = a.X, a.Z*sin+a.Y*cos, a.Z*cos-a.Y*sin`). -/
def Cart.RotateX (a : Cart) (sin cos : ℝ) : Cart :=
  ⟨a.X, a.Z * sin + a.Y * cos, a.Z * cos - a.Y * sin⟩

/-- Aliased execution of `Cart.RotateX` with z = a: Go evaluates the whole
right-hand side of the tuple assignment before writing any component. -/
def Cart.rotateXAliased (a : Cart) (sin cos : ℝ) : Cart :=
  let t := (a.X, a.Z * sin + a.Y * cos, a.Z * cos - a.Y * sin)
  ⟨t.1, t.2.1, t.2.2⟩

/-- Dot returns the dot product (method `Cart.Dot`). -/
def Cart.Dot (a1 a2 : Cart) : ℝ :=
  a1.X * a2.X + a1.Y * a2.Y + a1.Z * a2.Z

/-- Square = a.Dot(a) (method `Cart.Square`). -/
def Cart.Square (a : Cart) : ℝ :=
  a.X * a.X + a.Y * a.Y + a.Z * a.Z

/-- Cross computes the cross product z = a × b (method `Cart.Cross`; a single
Go tuple assignment, right-hand side fully evaluated before writing). -/
def Cart.Cross (a b : Cart) : Cart :=
  ⟨a.Y * b.Z - a.Z * b.Y, a.Z * b.X - a.X * b.Z, a.X * b.Y - a.Y * b.X⟩

/-- Aliased execution of `Cart.Cross` with z equal to either operand (or
both): the tuple right-hand side is computed from the operands first. -/
def Cart.crossAliased (a b : Cart) : Cart :=
  let t := (a.Y * b.Z - a.Z * b.Y, a.Z * b.X - a.X * b.Z, a.X * b.Y - a.Y * b.X)
  ⟨t.1, t.2.1, t.2.2⟩

/-- M3 represents a 3 × 3 matrix as a flat array (Go `type M3 [9]float64`,
row-major); field `ei` models array slot `i`. -/
structure M3 where
  e0 : ℝ
  e1 : ℝ
  e2 : ℝ
  e3 : ℝ
  e4 : ℝ
  e5 : ℝ
  e6 : ℝ
  e7 : ℝ
  e8 : ℝ

/-- Indexing of the flat 9-element array underlying `M3`. -/
def M3.get (m : M3) (k : Fin 9) : ℝ :=
  match k with
  | ⟨0, _⟩ => m.e0
  | ⟨1, _⟩ => m.e1
  | ⟨2, _⟩ => m.e2
  | ⟨3, _⟩ => m.e3
  | ⟨4, _⟩ => m.e4
  | ⟨5, _⟩ => m.e5
  | ⟨6, _⟩ => m.e6
  | ⟨7, _⟩ => m.e7
  | ⟨8, _⟩ => m.e8

/-- Mult3 does matrix multiplication z = rm × a (method `Cart.Mult3`; Go
assigns the composite literal `Cart{...}` to `*z` after computing it). -/
def Cart.Mult3 (rm : M3) (a : Cart) : Cart :=
  ⟨rm.e0 * a.X + rm.e1 * a.Y + rm.e2 * a.Z,
   rm.e3 * a.X + rm.e4 * a.Y + rm.e5 * a.Z,
   rm.e6 * a.X + rm.e7 * a.Y + rm.e8 * a.Z⟩

/-- Aliased execution of `Cart.Mult3` with z = a: the composite literal is
fully evaluated from `rm` and `a` before being stored through `z`. -/
def Cart.mult3Aliased (rm : M3) (a : Cart) : Cart :=
  let t : Cart :=
    ⟨rm.e0 * a.X + rm.e1 * a.Y + rm.e2 * a.Z,
     rm.e3 * a.X + rm.e4 * a.Y + rm.e5 * a.Z,
     rm.e6 * a.X + rm.e7 * a.Y + rm.e8 * a.Z⟩
  t

/-- Transpose to a separate result z = transpose(a) (method `M3.Transpose`
with distinct operands; all nine destination slots are assigned, reads all
from `a`): z[0],z[1],z[3] = a[0],a[3],a[1]; z[2],z[4],z[6] = a[6],a[4],a[2];
z[5],z[7],z[8] = a[7],a[5],a[8]. -/
def M3.Transpose (a : M3) : M3 :=
  ⟨a.e0, a.e3, a.e6, a.e1, a.e4, a.e7, a.e2, a.e5, a.e8⟩

/-- First tuple assignment of `M3.Transpose` executed with z = a = m:
m[0],m[1],m[3] = m[0],m[3],m[1]. -/
def M3.transposeStep1 (m : M3) : M3 :=
  { m with e0 := m.e0, e1 := m.e3, e3 := m.e1 }

/-- Second tuple assignment of `M3.Transpose` with z = a = m:
m[2],m[4],m[6] = m[6],m[4],m[2]. -/
def M3.transposeStep2 (m : M3) : M3 :=
  { m with e2 := m.e6, e4 := m.e4, e6 := m.e2 }

/-- Third tuple assignment of `M3.Transpose` with z = a = m:
m[5],m[7],m[8] = m[7],m[5],m[8]. -/
def M3.transposeStep3 (m : M3) : M3 :=
  { m with e5 := m.e7, e7 := m.e5, e8 := m.e8 }

/-- In-place execution of `M3.Transpose` (z and a the same array): the three
tuple assignments of the method body run in order on the shared array. -/
def M3.transposeInPlace (m : M3) : M3 :=
  M3.transposeStep3 (M3.transposeStep2 (M3.transposeStep1 m))

/-- Claim C8: for every vector a and scalars sin, cos, `Cart.RotateX` leaves
X equal to a.X, sets Y to a.Z*sin + a.Y*cos and Z to a.Z*cos - a.Y*sin. -/
theorem rotateX_components :
    ∀ (a : Cart) (sin cos : ℝ),
      Cart.RotateX a sin cos = ⟨a.X, a.Z * sin + a.Y * cos, a.Z * cos - a.Y * sin⟩ :=
  fun _ _ _ => rfl

/-- Claim C9: the cross product is antisymmetric, `Cross a b = Neg (Cross b a)`,
and `Cross a a` is the zero vector. -/
theorem cross_antisymm_and_self_zero :
    ∀ a b : Cart,
      Cart.Cross a b = Cart.Neg (Cart.Cross b a) ∧ Cart.Cross a a = ⟨0, 0, 0⟩ := by
  intro a b
  constructor
  · simp only [Cart.Cross, Cart.Neg, Cart.mk.injEq]
    refine ⟨by ring, by ring, by ring⟩
  · simp only [Cart.Cross, Cart.mk.injEq]
    refine ⟨by ring, by ring, by ring⟩

/-- Claim C6: `M3.Transpose` sets entry 3i+j of the result to entry 3j+i of
the argument for all i, j in 0..2, it is an involution, and the in-place
execution (destination aliased to the source) agrees with transposing into a
fresh destination. -/
theorem transpose_entries_involution_inplace :
    ∀ a : M3,
      (∀ i j : Fin 3,
        (M3.Transpose a).get ⟨3 * i.val + j.val, by have := i.isLt; have := j.isLt; omega⟩ =
          a.get ⟨3 * j.val + i.val, by have := i.isLt; have := j.isLt; omega⟩) ∧
      M3.Transpose (M3.Transpose a) = a ∧
      M3.transposeInPlace a = M3.Transpose a := by
  intro a
  refine ⟨?_, rfl, rfl⟩
  intro i j
  fin_cases i <;> fin_cases j <;> rfl

/-- Claim C7: every destination-writing operation tolerates aliasing of the
destination with a source argument: executing the method body with the
destination aliased to a source yields the same value as with a fresh
destination.  (For `FromSphr`, `FromCart` and `FromEqua` the destination and
source have different types, so no aliased call exists and the claim is
vacuous for them.) -/
theorem alias_dest_eq_fresh :
    ∀ (a b : Cart) (rm : M3) (m : M3) (k sin cos : ℝ),
      Cart.negAliased a = Cart.Neg a ∧
      Cart.addAliasedLeft a b = Cart.Add a b ∧
      Cart.addAliasedRight a b = Cart.Add a b ∧
      Cart.addAliasedBoth a = Cart.Add a a ∧
      Cart.subAliasedLeft a b = Cart.Sub a b ∧
      Cart.subAliasedRight a b = Cart.Sub a b ∧
      Cart.subAliasedBoth a = Cart.Sub a a ∧
      Cart.mulScalarAliased a k = Cart.MulScalar a k ∧
      Cart.rotateXAliased a sin cos = Cart.RotateX a sin cos ∧
      Cart.crossAliased a b = Cart.Cross a b ∧
      Cart.mult3Aliased rm a = Cart.Mult3 rm a ∧
      M3.transposeInPlace m = M3.Transpose m :=
  fun _ _ _ _ _ _ _ =>
    ⟨rfl, rfl, rfl, rfl, rfl, rfl, rfl, rfl, rfl, rfl, rfl, rfl⟩

/-!
Go slices.  A slice value is a view of an underlying array: a length, a
capacity, and the array itself (modelled as a total function from indices;
only indices below the capacity are ever relevant).  `make` produces a slice
whose array holds zero values.  Re-slicing `s[:n]` (for n ≤ cap) changes only
the length; indexing `s[i]` is in bounds exactly when `i < len`.
-/

/-- Model of a Go slice with element type α. -/
structure GoSlice (α : Type) where
  len : ℕ
  cap : ℕ
  store : ℕ → α

/-- Net effect on the underlying array of the loop
`for i := range src { dst[i] = f(src[i]) }` after `n` iterations:
positions 0..n-1 hold the converted elements, the rest is untouched. -/
def writeLoop {α β : Type} (f : α → β) (src : ℕ → α) (base : ℕ → β) : ℕ → ℕ → β
  | 0 => base
  | n + 1 => Function.update (writeLoop f src base n) n (f (src n))

theorem writeLoop_lt {α β : Type} (f : α → β) (src : ℕ → α) (base : ℕ → β)
    (n i : ℕ) (h : i < n) : writeLoop f src base n i = f (src i) := by
  induction n with
  | zero => omega
  | succ n ih =>
    by_cases hi : i = n
    · subst hi
      simp [writeLoop]
    · have : i < n := by omega
      simp [writeLoop, Function.update_noteq hi]
      exact ih this

theorem writeLoop_ge {α β : Type} (f : α → β) (src : ℕ → α) (base : ℕ → β)
    (n i : ℕ) (h : n ≤ i) : writeLoop f src base n i = base i := by
  induction n with
  | zero => rfl
  | succ n ih =>
    have hne : i ≠ n := by omega
    simp [writeLoop, Function.update_noteq hne]
    exact ih (by omega)

/-- The zero value of Go type `Cart`, as produced by `make`. -/
def zeroCart : Cart := ⟨0, 0, 0⟩

/-!
Angular coordinate types.  The external dependency `github.com/soniakeys/unit`
is not part of this repository; its `Angle` and `RA` types are radian-valued
scalars, so both are modelled as real numbers, and its conversions are
modelled from the spec where they carry behavior (see `RAFromRad`).
-/

/-- Equa are equatorial coordinates (struct `Equa { RA unit.RA; Dec unit.Angle }`);
both fields are radian values. -/
structure Equa where
  RA : ℝ
  Dec : ℝ

/-- Sphr are general purpose spherical coordinates
(struct `Sphr { Lon, Lat unit.Angle }`). -/
structure Sphr where
  Lon : ℝ
  Lat : ℝ

/-- The zero value of Go type `Sphr`, as produced by `make` or `var`. -/
def zeroSphr : Sphr := ⟨0, 0⟩

/-- Modelled from the spec: `unit.RAFromRad` of the external unit package
(not in this repository) builds a right ascension from a radian value,
normalized into [0, 2π) by adding 2π and taking it modulo 2π. -/
noncomputable def RAFromRad (rad : ℝ) : ℝ :=
  (rad + 2 * π) - 2 * π * ⌊(rad + 2 * π) / (2 * π)⌋

/-- Go's `math.Atan2(y, x)`, modelled as the argument of the complex number
x + y·i, which lies in (-π, π] and is 0 at the origin. -/
noncomputable def atan2 (y x : ℝ) : ℝ :=
  Complex.arg ((x : ℂ) + (y : ℂ) * Complex.I)

/-- FromSphr converts spherical coordinates (Lon, Lat) to a cartesian unit
vector (method `Cart.FromSphr`): X = cos Lat · cos Lon, Y = cos Lat · sin Lon,
Z = sin Lat, via `unit.Angle.Sincos` = (sin, cos) of the radian value. -/
noncomputable def Cart.FromSphr (s : Sphr) : Cart :=
  ⟨Real.cos s.Lat * Real.cos s.Lon, Real.cos s.Lat * Real.sin s.Lon, Real.sin s.Lat⟩

/-- FromEqua copies an equatorial coordinate into a spherical one (method
`Sphr.FromEqua`): Lon = e.RA.Angle() (the radian value of the right
ascension), Lat = e.Dec. -/
def Sphr.FromEqua (e : Equa) : Sphr :=
  ⟨e.RA, e.Dec⟩

/-- FromCart converts a cartesian vector to equatorial coordinates (method
`Equa.FromCart`): RA = unit.RAFromRad(atan2(c.Y, c.X)), Dec = asin(c.Z). -/
noncomputable def Equa.FromCart (c : Cart) : Equa :=
  ⟨RAFromRad (atan2 c.Y c.X), Real.arcsin c.Z⟩

/-- FromCart converts a cartesian vector to spherical coordinates (method
`Sphr.FromCart`): Lon = atan2(c.Y, c.X) (no normalization), Lat = asin(c.Z). -/
noncomputable def Sphr.FromCart (c : Cart) : Sphr :=
  ⟨atan2 c.Y c.X, Real.arcsin c.Z⟩

/-!
Batch (slice) operations.  Each mirrors the Go body: the receiver is
re-sliced to the input length when its capacity suffices, otherwise a fresh
zeroed slice of the input length is made; then the loop writes index by
index.  In `FromEquaS`, `FromSphrS` and `FromCartS` the slice being indexed
was just given exactly the input length, so every loop index is in bounds.
`Mult3S` is the exception: its else branch re-slices to `len(z)` (the
receiver's own length, `z = z[:len(z)]`), not to `len(a)`, so the loop index
goes out of bounds (a Go runtime panic, modelled as `none`) whenever
`len(z) < len(a) ≤ cap(z)`.
-/

/-- FromEquaS converts an equatorial slice to a cartesian slice (method
`CartS.FromEquaS`); each element is `c[i].FromSphr(s.FromEqua(&e[i]))` where
the temporary `s` is fully overwritten by `FromEqua` on every iteration. -/
noncomputable def CartS.FromEquaS (cp : GoSlice Cart) (e : GoSlice Equa) : GoSlice Cart :=
  if cp.cap < e.len then
    ⟨e.len, e.len,
      writeLoop (fun e1 => Cart.FromSphr (Sphr.FromEqua e1)) e.store (fun _ => zeroCart) e.len⟩
  else
    ⟨e.len, cp.cap,
      writeLoop (fun e1 => Cart.FromSphr (Sphr.FromEqua e1)) e.store cp.store e.len⟩

/-- SphrS converts an equatorial slice to a freshly made spherical slice
(method `EquaS.SphrS`). -/
def EquaS.SphrS (e : GoSlice Equa) : GoSlice Sphr :=
  ⟨e.len, e.len,
    writeLoop (fun e1 => Sphr.FromEqua e1) e.store (fun _ => zeroSphr) e.len⟩

/-- FromSphrS converts a spherical slice to a cartesian slice (method
`CartS.FromSphrS`). -/
noncomputable def CartS.FromSphrS (cp : GoSlice Cart) (s : GoSlice Sphr) : GoSlice Cart :=
  if cp.cap < s.len then
    ⟨s.len, s.len,
      writeLoop (fun s1 => Cart.FromSphr s1) s.store (fun _ => zeroCart) s.len⟩
  else
    ⟨s.len, cp.cap,
      writeLoop (fun s1 => Cart.FromSphr s1) s.store cp.store s.len⟩

/-- FromCartS converts a cartesian slice to a spherical slice (method
`SphrS.FromCartS`). -/
noncomputable def SphrS.FromCartS (sp : GoSlice Sphr) (c : GoSlice Cart) : GoSlice Sphr :=
  if sp.cap < c.len then
    ⟨c.len, c.len,
      writeLoop (fun c1 => Sphr.FromCart c1) c.store (fun _ => zeroSphr) c.len⟩
  else
    ⟨c.len, sp.cap,
      writeLoop (fun c1 => Sphr.FromCart c1) c.store sp.store c.len⟩

/-- Mult3S broadcasts `Cart.Mult3` to a slice (method `CartS.Mult3S`).  Its
else branch performs `z = z[:len(z)]`, keeping the receiver's length, and the
loop then indexes `z[i]` for every `i < len(a)`; when `len(a) > len(z)` that
indexing is out of range, a Go runtime panic, modelled as `none`. -/
def CartS.Mult3S (zp : GoSlice Cart) (rm : M3) (a : GoSlice Cart) : Option (GoSlice Cart) :=
  if zp.cap < a.len then
    some ⟨a.len, a.len,
      writeLoop (fun a1 => Cart.Mult3 rm a1) a.store (fun _ => zeroCart) a.len⟩
  else if a.len ≤ zp.len then
    some ⟨zp.len, zp.cap,
      writeLoop (fun a1 => Cart.Mult3 rm a1) a.store zp.store a.len⟩
  else
    none

/-- The zero 3×3 matrix, used as a concrete sample input. -/
def rmZero : M3 := ⟨0, 0, 0, 0, 0, 0, 0, 0, 0⟩

/-- Claim C1 fails on `Mult3S`: with a receiver of length 2 and capacity 2
and an input slice of length 1, the returned slice has length 2, not the
input length 1 (the else branch re-slices to `len(z)` instead of `len(a)`). -/
theorem mult3S_length_bug :
    (CartS.Mult3S ⟨2, 2, fun _ => zeroCart⟩ rmZero ⟨1, 1, fun _ => zeroCart⟩).map GoSlice.len
      = some 2 := rfl

/-- Claim C2 fails on `Mult3S`: with a receiver of length 0 and capacity 1
and an input slice of length 1, the loop indexes `z[0]` on a zero-length
slice — an out-of-range panic, modelled as `none`. -/
theorem mult3S_panic_bug :
    CartS.Mult3S ⟨0, 1, fun _ => zeroCart⟩ rmZero ⟨1, 1, fun _ => zeroCart⟩ = none := rfl

/-- Claim C5: each batch operation writes, at every output index i below the
input length, exactly the single-element conversion of the input element at
index i (for `Mult3S`, on any run that completes); order is preserved and no
state carries over between elements. -/
theorem batch_elementwise :
    ∀ (cp : GoSlice Cart) (sp : GoSlice Sphr) (zp : GoSlice Cart) (rm : M3)
      (e : GoSlice Equa) (s : GoSlice Sphr) (c : GoSlice Cart) (a : GoSlice Cart) (i : ℕ),
      (i < e.len → (CartS.FromEquaS cp e).store i = Cart.FromSphr (Sphr.FromEqua (e.store i))) ∧
      (i < s.len → (CartS.FromSphrS cp s).store i = Cart.FromSphr (s.store i)) ∧
      (i < c.len → (SphrS.FromCartS sp c).store i = Sphr.FromCart (c.store i)) ∧
      (∀ r, CartS.Mult3S zp rm a = some r → i < a.len →
        r.store i = Cart.Mult3 rm (a.store i)) := by
  intro cp sp zp rm e s c a i
  refine ⟨?_, ?_, ?_, ?_⟩
  · intro hi
    unfold CartS.FromEquaS
    by_cases h : cp.cap < e.len <;> simp only [h, if_true, if_false, reduceIte] <;>
      exact writeLoop_lt _ _ _ _ _ hi
  · intro hi
    unfold CartS.FromSphrS
    by_cases h : cp.cap < s.len <;> simp only [h, if_true, if_false, reduceIte] <;>
      exact writeLoop_lt _ _ _ _ _ hi
  · intro hi
    unfold SphrS.FromCartS
    by_cases h : sp.cap < c.len <;> simp only [h, if_true, if_false, reduceIte] <;>
      exact writeLoop_lt _ _ _ _ _ hi
  · intro r hr hi
    unfold CartS.Mult3S at hr
    by_cases h1 : zp.cap < a.len
    · simp only [h1, reduceIte, Option.some.injEq] at hr
      subst hr
      exact writeLoop_lt _ _ _ _ _ hi
    · by_cases h2 : a.len ≤ zp.len
      · simp only [h1, h2, reduceIte, Option.some.injEq] at hr
        subst hr
        exact writeLoop_lt _ _ _ _ _ hi
      · simp only [h1, h2, reduceIte] at hr
        exact absurd hr (by simp)

/-- Sample receiver slice (length 0, capacity 0) for the C5 witness. -/
def cpSample : GoSlice Cart := ⟨0, 0, fun _ => zeroCart⟩

/-- Sample spherical receiver slice for the C5 witness. -/
def spSample : GoSlice Sphr := ⟨0, 0, fun _ => zeroSphr⟩

/-- Sample equatorial input slice of length 1 for the C5 witness. -/
def eSample : GoSlice Equa := ⟨1, 1, fun _ => ⟨0, 0⟩⟩

/-- Sample spherical input slice of length 1 for the C5 witness. -/
def sSample : GoSlice Sphr := ⟨1, 1, fun _ => zeroSphr⟩

/-- Sample cartesian input slice of length 1 for the C5 witness. -/
def aSample : GoSlice Cart := ⟨1, 1, fun _ => zeroCart⟩

/-- The slice `Mult3S` returns on the sample receiver and input. -/
def rSample : GoSlice Cart :=
  ⟨1, 1, writeLoop (fun a1 => Cart.Mult3 rmZero a1) aSample.store (fun _ => zeroCart) 1⟩

/-- Witness for claim C5 at concrete inputs of length 1. -/
theorem batch_elementwise_witness :
    (CartS.FromEquaS cpSample eSample).store 0
        = Cart.FromSphr (Sphr.FromEqua (eSample.store 0)) ∧
    (CartS.FromSphrS cpSample sSample).store 0 = Cart.FromSphr (sSample.store 0) ∧
    (SphrS.FromCartS spSample aSample).store 0 = Sphr.FromCart (aSample.store 0) ∧
    rSample.store 0 = Cart.Mult3 rmZero (aSample.store 0) := by
  have h := batch_elementwise cpSample spSample aSample rmZero eSample sSample aSample aSample 0
  exact ⟨h.1 (by decide), h.2.1 (by decide), h.2.2.1 (by decide),
    h.2.2.2 rSample rfl (by decide)⟩

/-- Claim C10: converting an equatorial slice directly with `FromEquaS`
yields exactly the same slice as first copying it to a spherical slice with
`SphrS` and then converting with `FromSphrS` (given the same receiver). -/
theorem fromEquaS_eq_sphrS_fromSphrS :
    ∀ (cp : GoSlice Cart) (e : GoSlice Equa),
      CartS.FromEquaS cp e = CartS.FromSphrS cp (EquaS.SphrS e) := by
  intro cp e
  have hstore : ∀ base : ℕ → Cart,
      writeLoop (fun e1 => Cart.FromSphr (Sphr.FromEqua e1)) e.store base e.len
        = writeLoop (fun s1 => Cart.FromSphr s1) (EquaS.SphrS e).store base e.len := by
    intro base
    funext i
    rcases lt_or_ge i e.len with hi | hi
    · rw [writeLoop_lt _ _ _ _ _ hi, writeLoop_lt _ _ _ _ _ hi]
      show Cart.FromSphr (Sphr.FromEqua (e.store i)) = Cart.FromSphr ((EquaS.SphrS e).store i)
      rw [show (EquaS.SphrS e).store i = Sphr.FromEqua (e.store i) from
        writeLoop_lt _ _ _ _ _ hi]
    · rw [writeLoop_ge _ _ _ _ _ hi, writeLoop_ge _ _ _ _ _ hi]
  have hlen : (EquaS.SphrS e).len = e.len := rfl
  unfold CartS.FromEquaS CartS.FromSphrS
  rw [hlen]
  by_cases h : cp.cap < e.len <;> simp only [h, reduceIte] <;> rw [hstore]

/-- The normalization `RAFromRad` always lands in [0, 2π). -/
theorem RAFromRad_mem_Ico (r : ℝ) : RAFromRad r ∈ Set.Ico 0 (2 * π) := by
  have h2 : (0 : ℝ) < 2 * π := by positivity
  have heq : RAFromRad r = 2 * π * Int.fract ((r + 2 * π) / (2 * π)) := by
    unfold RAFromRad
    rw [← Int.self_sub_floor]
    field_simp
  rw [heq]
  constructor
  · exact mul_nonneg h2.le (Int.fract_nonneg _)
  · nlinarith [Int.fract_lt_one ((r + 2 * π) / (2 * π))]

/-- The normalization `RAFromRad` changes its argument by an integer
multiple of 2π. -/
theorem RAFromRad_eq_add_int_mul (r : ℝ) : ∃ k : ℤ, RAFromRad r = r + 2 * π * k := by
  refine ⟨1 - ⌊(r + 2 * π) / (2 * π)⌋, ?_⟩
  unfold RAFromRad
  push_cast
  ring

/-- Go's `math.Atan2(-1, 0)` is -π/2 (the argument of the complex number -i). -/
theorem atan2_negone_zero : atan2 (-1) 0 = -(π / 2) := by
  unfold atan2
  have h : ((0 : ℝ) : ℂ) + ((-1 : ℝ) : ℂ) * Complex.I = -Complex.I := by
    push_cast
    ring
  rw [h, Complex.arg_neg_I]

/-- Counterexample to claim C3 as stated: for the vector (0, -1, 0), the
longitude produced by `Sphr.FromCart` is -π/2, which is not in [0, 2π) —
`Sphr.FromCart` stores the raw atan2 value without normalization. -/
theorem sphr_fromCart_lon_not_normalized :
    (Sphr.FromCart ⟨0, -1, 0⟩).Lon = -(π / 2) ∧
    (Sphr.FromCart ⟨0, -1, 0⟩).Lon ∉ Set.Ico 0 (2 * π) := by
  have h : (Sphr.FromCart ⟨0, -1, 0⟩).Lon = -(π / 2) := atan2_negone_zero
  refine ⟨h, ?_⟩
  rw [h]
  intro hmem
  have h1 := hmem.1
  nlinarith [Real.pi_pos]

/-- Claim C3, amended: for every vector v, `Sphr.FromCart` yields longitude
equal to the raw atan2(v.Y, v.X), lying in (-π, π] (it does not normalize),
while `Equa.FromCart` yields right ascension equal to atan2(v.Y, v.X)
normalized into [0, 2π) (equal to it up to an integer multiple of 2π); both
yield latitude/declination asin(v.Z). -/
theorem fromCart_components :
    ∀ v : Cart,
      (Sphr.FromCart v).Lon = atan2 v.Y v.X ∧
      (Sphr.FromCart v).Lon ∈ Set.Ioc (-π) π ∧
      (Sphr.FromCart v).Lat = Real.arcsin v.Z ∧
      (Equa.FromCart v).Dec = Real.arcsin v.Z ∧
      (Equa.FromCart v).RA ∈ Set.Ico 0 (2 * π) ∧
      ∃ k : ℤ, (Equa.FromCart v).RA = atan2 v.Y v.X + 2 * π * k :=
  fun _ =>
    ⟨rfl, Complex.arg_mem_Ioc _, rfl, rfl, RAFromRad_mem_Ico _, RAFromRad_eq_add_int_mul _⟩

/-- Claim C4, amended: for latitude strictly inside (-π/2, π/2) and longitude
in [0, 2π), the round trip `Sphr.FromCart ∘ Cart.FromSphr` reproduces the
latitude exactly, and reproduces the longitude exactly when it is at most π,
but yields longitude − 2π when the longitude exceeds π (because
`Sphr.FromCart` does not normalize atan2 into [0, 2π)). -/
theorem fromSphr_fromCart_roundtrip (lon lat : ℝ)
    (hlat : lat ∈ Set.Ioo (-(π / 2)) (π / 2)) (hlon : lon ∈ Set.Ico 0 (2 * π)) :
    (Sphr.FromCart (Cart.FromSphr ⟨lon, lat⟩)).Lat = lat ∧
    (lon ≤ π → (Sphr.FromCart (Cart.FromSphr ⟨lon, lat⟩)).Lon = lon) ∧
    (π < lon → (Sphr.FromCart (Cart.FromSphr ⟨lon, lat⟩)).Lon = lon - 2 * π) := by
  have hpi := Real.pi_pos
  have hc : 0 < Real.cos lat := Real.cos_pos_of_mem_Ioo hlat
  have harg : ∀ θ : ℝ, θ ∈ Set.Ioc (-π) π →
      atan2 (Real.cos lat * Real.sin θ) (Real.cos lat * Real.cos θ) = θ := by
    intro θ hθ
    unfold atan2
    have key : ((Real.cos lat * Real.cos θ : ℝ) : ℂ)
          + ((Real.cos lat * Real.sin θ : ℝ) : ℂ) * Complex.I
        = (Real.cos lat : ℂ) * (((Real.cos θ : ℝ) : ℂ) + ((Real.sin θ : ℝ) : ℂ) * Complex.I) := by
      push_cast
      ring
    rw [key, Complex.arg_real_mul _ hc, Complex.ofReal_cos, Complex.ofReal_sin]
    exact Complex.arg_cos_add_sin_mul_I hθ
  refine ⟨?_, ?_, ?_⟩
  · show Real.arcsin (Real.sin lat) = lat
    exact Real.arcsin_sin hlat.1.le hlat.2.le
  · intro hle
    show atan2 (Real.cos lat * Real.sin lon) (Real.cos lat * Real.cos lon) = lon
    exact harg lon ⟨by linarith [hlon.1], hle⟩
  · intro hgt
    show atan2 (Real.cos lat * Real.sin lon) (Real.cos lat * Real.cos lon) = lon - 2 * π
    rw [← Real.sin_sub_two_pi lon, ← Real.cos_sub_two_pi lon]
    exact harg (lon - 2 * π) ⟨by linarith, by linarith [hlon.2]⟩

/-- Witness for claim C4 at the concrete angles lon = 0, lat = 0. -/
theorem fromSphr_fromCart_roundtrip_witness :
    (Sphr.FromCart (Cart.FromSphr ⟨0, 0⟩)).Lat = 0 ∧
    ((0 : ℝ) ≤ π → (Sphr.FromCart (Cart.FromSphr ⟨0, 0⟩)).Lon = 0) ∧
    (π < 0 → (Sphr.FromCart (Cart.FromSphr ⟨0, 0⟩)).Lon = 0 - 2 * π) :=
  fromSphr_fromCart_roundtrip 0 0 ⟨neg_lt_zero.mpr (by positivity), by positivity⟩
    ⟨le_refl 0, by positivity⟩

/-- Counterexample to claim C4 as stated: the angles lon = 3π/2, lat = 0 lie
in the claimed domain, but the round trip returns longitude -π/2, not 3π/2
(the two differ by 2π, far beyond any floating-point trigonometric error). -/
theorem roundtrip_fails_at_three_half_pi :
    (Sphr.FromCart (Cart.FromSphr ⟨3 * π / 2, 0⟩)).Lon = -(π / 2) ∧
    -(π / 2) ≠ 3 * π / 2 ∧
    (0 : ℝ) ∈ Set.Ioo (-(π / 2)) (π / 2) ∧ 3 * π / 2 ∈ Set.Ico 0 (2 * π) := by
  have hpi := Real.pi_pos
  have hsplit : (3 * π / 2 : ℝ) = π + π / 2 := by ring
  have hcos : Real.cos (3 * π / 2) = 0 := by
    rw [hsplit, Real.cos_add, Real.cos_pi, Real.sin_pi, Real.cos_pi_div_two,
      Real.sin_pi_div_two]
    ring
  have hsin : Real.sin (3 * π / 2) = -1 := by
    rw [hsplit, Real.sin_add, Real.cos_pi, Real.sin_pi, Real.cos_pi_div_two,
      Real.sin_pi_div_two]
    ring
  refine ⟨?_, by intro h; linarith, ⟨by linarith, by linarith⟩, ⟨by linarith, by linarith⟩⟩
  show atan2 (Real.cos 0 * Real.sin (3 * π / 2)) (Real.cos 0 * Real.cos (3 * π / 2)) = -(π / 2)
  rw [hcos, hsin, Real.cos_zero, one_mul, one_mul]
  exact atan2_negone_zero
